import Mathlib

/-!
Shallow embedding of the allocation fast path and mutator-visible GC
bookkeeping found in `src/heap/heap-inl.h` of the repository, together with
theorems settling the frozen claims about it.

Addresses are modelled as natural numbers; machine-integer truncation is made
explicit with `% 2 ^ 32` / `% 2 ^ 16` where the source casts.  The store
buffer is an append-only list of slot addresses.  Sub-space allocators,
whose code lives outside this header, are abstract function fields of the
heap record; the dispatcher, write barrier, memento scan, instrumentation
hash folding and external-string finalization are translated from the
source line by line.
-/

namespace V8Heap

/-- The spaces a request can name (`AllocationSpace` in the source). -/
inductive AllocationSpace where
  | NEW_SPACE
  | OLD_SPACE
  | CODE_SPACE
  | MAP_SPACE
  | LO_SPACE
deriving DecidableEq, Repr

/-- Executability flag passed to the large-object space allocator. -/
inductive Executability where
  | NOT_EXECUTABLE
  | EXECUTABLE
deriving DecidableEq, Repr

/-- Alignment request forwarded to the bump allocators. -/
inductive AllocationAlignment where
  | kWordAligned
  | kDoubleAligned
  | kDoubleUnaligned
deriving DecidableEq, Repr

/-- Model of `AllocationResult`: either `Success(address)` or `Retry(space)`. -/
inductive AllocationResult where
  | success (address : Nat)
  | retry (space : AllocationSpace)
deriving DecidableEq, Repr

/-- Model of `AllocationResult::To`: true exactly on the success arm. -/
def AllocationResult.toSucceeds : AllocationResult → Bool
  | .success _ => true
  | .retry _ => false

/-- A VM value (`Object*`): either a small integer or a heap object lying on
some page; `pageInNewSpace` is the page's new-space flag consulted by
`Heap::InNewSpace`. -/
structure Obj where
  isHeapObject : Bool
  pageInNewSpace : Bool
deriving DecidableEq, Repr

/-- Model of `Heap::InNewSpace`: the value is a heap object and the page holding its
address carries the new-space flag. -/
def inNewSpace (o : Obj) : Bool :=
  o.isHeapObject && o.pageInNewSpace

/-- Model of `Heap::RecordWrite(object, slot, value)` over an explicit store buffer:
bail out unless the value is in new space, the container is a heap object
and the container is not in new space; otherwise append the slot address
(`StoreBuffer::InsertEntry`). -/
def recordWrite (storeBuffer : List Nat) (object : Obj) (slot : Nat)
    (value : Obj) : List Nat :=
  if !inNewSpace value || !object.isHeapObject || inNewSpace object then
    storeBuffer
  else
    storeBuffer ++ [slot]

/-- Model of `Heap::RecordWriteIntoCode(host, rinfo, value)`: delegate to the slow
path exactly when the new value is in new space.  The slow path itself is
external; we record whether it was triggered. -/
def recordWriteIntoCodeTriggersSlowPath (value : Obj) : Bool :=
  inNewSpace value

/-- One element of a fixed array together with the raw slot address of each
element (`FixedArray::RawFieldOfElementAt`); the element contents are a
function from index to value. -/
structure FixedArrayObj where
  self : Obj
  get : Nat → Obj
  rawFieldOfElementAt : Nat → Nat

/-- Model of `Heap::RecordFixedArrayElements(array, offset, length)`: no-op when the
array is in new space; otherwise walk `i = 0 .. length-1` and append the
slot address of element `offset + i` whenever that element currently holds
a new-space pointer. -/
def recordFixedArrayElements (storeBuffer : List Nat) (array : FixedArrayObj)
    (offset length : Nat) : List Nat :=
  if inNewSpace array.self then
    storeBuffer
  else
    (List.range length).foldl
      (fun buf i =>
        if !inNewSpace (array.get (offset + i)) then
          buf
        else
          buf ++ [array.rawFieldOfElementAt (offset + i)])
      storeBuffer

/-- Modelled from the spec: the large-object threshold
(`kMaxRegularHeapObjectSize`, defined outside this header).  Its exact value
does not matter to the claims, which only compare sizes against it. -/
def kMaxRegularHeapObjectSize : Nat := 507136

/-- The heap as the allocation dispatcher sees it: one abstract allocator
per space (their code lives outside this header) plus the usable area size
of a regular code page. -/
structure AllocHeap where
  newSpaceAllocateRaw : Nat → AllocationAlignment → AllocationResult
  oldSpaceAllocateRaw : Nat → AllocationAlignment → AllocationResult
  codeSpaceAllocateRawUnaligned : Nat → AllocationResult
  mapSpaceAllocateRawUnaligned : Nat → AllocationResult
  loSpaceAllocateRaw : Nat → Executability → AllocationResult
  codeSpaceAreaSize : Nat

/-- The instrumentation calls `OnAllocationEvent(object, size)` issued by one
dispatcher invocation: at most one `(address, size)` pair. -/
def onAllocationEventLog (allocation : AllocationResult) (size_in_bytes : Nat) :
    List (Nat × Nat) :=
  match allocation with
  | .success address => [(address, size_in_bytes)]
  | .retry _ => []

/-- Model of `Heap::AllocateRaw(size_in_bytes, space, alignment)`: the dispatcher of
`heap-inl.h`, returning the allocation result together with the list of
`OnAllocationEvent` calls it fired.  `none` models the fatal `UNREACHABLE`
branch (a `NEW_SPACE` request reaching the old-generation dispatch). -/
def allocateRaw (h : AllocHeap) (size_in_bytes : Nat) (space : AllocationSpace)
    (alignment : AllocationAlignment) :
    Option (AllocationResult × List (Nat × Nat)) :=
  let large_object := size_in_bytes > kMaxRegularHeapObjectSize
  if space = AllocationSpace.NEW_SPACE && !large_object then
    let allocation := h.newSpaceAllocateRaw size_in_bytes alignment
    some (allocation, onAllocationEventLog allocation size_in_bytes)
  else
    let space1 :=
      if space = AllocationSpace.NEW_SPACE then AllocationSpace.LO_SPACE
      else space
    let allocation? : Option AllocationResult :=
      match space1 with
      | .OLD_SPACE =>
          if large_object then
            some (h.loSpaceAllocateRaw size_in_bytes Executability.NOT_EXECUTABLE)
          else
            some (h.oldSpaceAllocateRaw size_in_bytes alignment)
      | .CODE_SPACE =>
          if size_in_bytes ≤ h.codeSpaceAreaSize then
            some (h.codeSpaceAllocateRawUnaligned size_in_bytes)
          else
            some (h.loSpaceAllocateRaw size_in_bytes Executability.EXECUTABLE)
      | .LO_SPACE =>
          some (h.loSpaceAllocateRaw size_in_bytes Executability.NOT_EXECUTABLE)
      | .MAP_SPACE =>
          some (h.mapSpaceAllocateRawUnaligned size_in_bytes)
      | .NEW_SPACE => none
    match allocation? with
    | none => none
    | some allocation =>
        some (allocation, onAllocationEventLog allocation size_in_bytes)

/-- Constant `kPageSizeBits` (19 in this source tree: 512 KiB pages); the space tag is
shifted by this amount when hashing and pages are aligned to `2 ^ 19`. -/
def kPageSizeBits : Nat := 19

/-- Size in bytes of one page (`Page::kPageSize`). -/
def kPageSize : Nat := 2 ^ kPageSizeBits

/-- Word size (`kPointerSize`) on a 64-bit target. -/
def kPointerSize : Nat := 8

/-- Model of `Page::FromAddress`: the page holding an address, modelled as its index
(the address with the low `kPageSizeBits` bits cleared, divided out). -/
def pageFromAddress (a : Nat) : Nat := a / kPageSize

/-- Model of `Page::OnSamePage(a, b)`: both addresses belong to the same aligned
page. -/
def onSamePage (a b : Nat) : Bool := pageFromAddress a == pageFromAddress b

/-- Model of `MemoryChunk::Contains(addr)` for the page with index `page`: the
address lies inside that page. -/
def pageContains (page : Nat) (a : Nat) : Bool := pageFromAddress a == page

/-- Model of `Heap::FindMementoMode`. -/
inductive FindMementoMode where
  | kForGC
  | kForRuntime
deriving DecidableEq, Repr

/-- The heap state consulted by `Heap::FindAllocationMemento`: word-indexed
memory, the well-known allocation-memento map word, per-page
`NEW_SPACE_BELOW_AGE_MARK` flags, the age mark of each page's owning
semispace, the new-space allocation top, and the (external)
`AllocationMemento::IsValid` payload check keyed by memento address. -/
structure MementoHeap where
  mem : Nat → Nat
  allocationMementoMapWord : Nat
  newSpaceBelowAgeMark : Nat → Bool
  ageMarkOfPageOwner : Nat → Nat
  newSpaceTop : Nat
  mementoIsValid : Nat → Bool

/-- Mode-specific tail of `Heap::FindAllocationMemento`: for GC the
candidate is returned as is; for runtime it is rejected when it sits at the
new-space allocation top and re-validated (`IsValid`) otherwise.  The
dead null check on the candidate is omitted: a candidate made with
`HeapObject::FromAddress` is never null. -/
def findMementoModeCheck (h : MementoHeap) (mode : FindMementoMode)
    (memento_address : Nat) (reads : List Nat) : Option Nat × List Nat :=
  match mode with
  | .kForGC => (some memento_address, reads)
  | .kForRuntime =>
      if memento_address ≠ h.newSpaceTop && h.mementoIsValid memento_address then
        (some memento_address, reads)
      else
        (none, reads)

/-- Model of `Heap::FindAllocationMemento(map, object)`: returns the candidate
memento address on success together with the list of word addresses this
function itself read from page memory (the candidate map word peek).
`object_size` is `object->SizeFromMap(map)`. -/
def findAllocationMemento (h : MementoHeap) (mode : FindMementoMode)
    (object_size : Nat) (object_address : Nat) : Option Nat × List Nat :=
  let memento_address := object_address + object_size
  let last_memento_word_address := memento_address + kPointerSize
  if !onSamePage object_address last_memento_word_address then
    (none, [])
  else
    let candidate_map := h.mem memento_address
    let reads := [memento_address]
    if candidate_map ≠ h.allocationMementoMapWord then
      (none, reads)
    else
      let object_page := pageFromAddress object_address
      if h.newSpaceBelowAgeMark object_page then
        let age_mark := h.ageMarkOfPageOwner object_page
        if !pageContains object_page age_mark then
          (none, reads)
        else if object_address < age_mark then
          (none, reads)
        else
          findMementoModeCheck h mode memento_address reads
      else
        findMementoModeCheck h mode memento_address reads

/-- Model of `Heap::UpdateAllocationsHash(uint32_t value)`: split the 32-bit value
into its low and high 16-bit halves and fold each through the 16-bit
character mixing step (`StringHasher::AddCharacterCore`, external to this
header, passed in as `addCharacterCore`), low half first. -/
def updateAllocationsHashValue (addCharacterCore : Nat → Nat → Nat)
    (hash : Nat) (value : Nat) : Nat :=
  let c1 := value % 2 ^ 16
  let c2 := (value / 2 ^ 16) % 2 ^ 16
  addCharacterCore (addCharacterCore hash c1) c2

/-- Model of `Heap::UpdateAllocationsHash(HeapObject*)`: fold the 32-bit value made
of the object's page-relative offset or-ed with its space id shifted by
`kPageSizeBits`. -/
def updateAllocationsHashObject (addCharacterCore : Nat → Nat → Nat)
    (hash : Nat) (pageOffset spaceId : Nat) : Nat :=
  let value :=
    Nat.lor (pageOffset % 2 ^ 32) (((spaceId % 2 ^ 32) * 2 ^ kPageSizeBits) % 2 ^ 32)
      % 2 ^ 32
  updateAllocationsHashValue addCharacterCore hash value

/-- The deterministic-replay state touched by the instrumentation hooks:
the allocation counter, the rolling hash, and the synthetic monotonic
clock advanced on every hashed event. -/
structure HashState where
  allocationsCount : Nat
  rawAllocationsHash : Nat
  syntheticClock : Nat
deriving DecidableEq, Repr

/-- One instrumentation event as seen by the hash folding: an allocation
(page-relative offset, space id, size) or a move (source and target offsets
and space ids, size). -/
inductive InstrumentationEvent where
  | allocation (pageOffset spaceId size : Nat)
  | move (sourcePageOffset sourceSpaceId targetPageOffset targetSpaceId
      size : Nat)
deriving DecidableEq, Repr

/-- Hash-relevant body of `Heap::OnAllocationEvent` with
`FLAG_verify_predictable` set: bump the counter, advance the synthetic
clock, fold the object value then the size. -/
def onAllocationEventHash (addCharacterCore : Nat → Nat → Nat)
    (st : HashState) (pageOffset spaceId size : Nat) : HashState :=
  { allocationsCount := st.allocationsCount + 1
    syntheticClock := st.syntheticClock + 1
    rawAllocationsHash :=
      updateAllocationsHashValue addCharacterCore
        (updateAllocationsHashObject addCharacterCore st.rawAllocationsHash
          pageOffset spaceId)
        (size % 2 ^ 32) }

/-- Hash-relevant body of `Heap::OnMoveEvent` with `FLAG_verify_predictable`
set: bump the counter, advance the clock, fold source, then target, then
size. -/
def onMoveEventHash (addCharacterCore : Nat → Nat → Nat) (st : HashState)
    (sourcePageOffset sourceSpaceId targetPageOffset targetSpaceId
      size : Nat) : HashState :=
  { allocationsCount := st.allocationsCount + 1
    syntheticClock := st.syntheticClock + 1
    rawAllocationsHash :=
      updateAllocationsHashValue addCharacterCore
        (updateAllocationsHashObject addCharacterCore
          (updateAllocationsHashObject addCharacterCore st.rawAllocationsHash
            sourcePageOffset sourceSpaceId)
          targetPageOffset targetSpaceId)
        (size % 2 ^ 32) }

/-- Process one instrumentation event in deterministic-hash mode. -/
def stepInstrumentationEvent (addCharacterCore : Nat → Nat → Nat)
    (st : HashState) : InstrumentationEvent → HashState
  | .allocation pageOffset spaceId size =>
      onAllocationEventHash addCharacterCore st pageOffset spaceId size
  | .move so ss tgo tgs size =>
      onMoveEventHash addCharacterCore st so ss tgo tgs size

/-- Run a whole sequence of instrumentation events in order. -/
def runInstrumentationEvents (addCharacterCore : Nat → Nat → Nat)
    (st : HashState) (events : List InstrumentationEvent) : HashState :=
  events.foldl (stepInstrumentationEvent addCharacterCore) st

/-- State of one external string: the embedded external-resource pointer
(`none` once cleared) and how many times `Dispose` has run on its
resource. -/
structure ExternalStringState where
  resource : Option Nat
  disposeCount : Nat
deriving DecidableEq, Repr

/-- Model of `Heap::FinalizeExternalString(string)`: if the embedded resource
pointer is non-null, dispose the resource and null the pointer; otherwise
do nothing. -/
def finalizeExternalString (s : ExternalStringState) : ExternalStringState :=
  match s.resource with
  | some _ => { resource := none, disposeCount := s.disposeCount + 1 }
  | none => s

/-- A fixed array as `CopyFixedArray` sees it: its address, length, and map
word. -/
structure FixedArrayHeader where
  address : Nat
  length : Nat
  map : Nat
deriving DecidableEq, Repr

/-- Model of `Heap::CopyFixedArray(src)` over an abstract heap state `σ`:
zero-length arrays are returned as themselves; otherwise delegate to the
(external, allocating) `CopyFixedArrayWithMap` with the source's own map. -/
def copyFixedArray {σ : Type}
    (copyFixedArrayWithMap : σ → FixedArrayHeader → Nat → σ × AllocationResult)
    (st : σ) (src : FixedArrayHeader) : σ × AllocationResult :=
  if src.length = 0 then
    (st, AllocationResult.success src.address)
  else
    copyFixedArrayWithMap st src src.map

/-- Model of `Heap::CopyFixedDoubleArray(src)`: same shape as `CopyFixedArray`,
delegating to `CopyFixedDoubleArrayWithMap`. -/
def copyFixedDoubleArray {σ : Type}
    (copyFixedDoubleArrayWithMap :
      σ → FixedArrayHeader → Nat → σ × AllocationResult)
    (st : σ) (src : FixedArrayHeader) : σ × AllocationResult :=
  if src.length = 0 then
    (st, AllocationResult.success src.address)
  else
    copyFixedDoubleArrayWithMap st src src.map

/-! ## Helper lemmas -/

/-- A fold that conditionally appends singletons equals the base list
followed by the mapped filter of the traversed indices. -/
theorem foldl_cond_append {α β : Type} (p : α → Bool) (f : α → β) :
    ∀ (l : List α) (buf : List β),
      l.foldl (fun b i => if !p i then b else b ++ [f i]) buf
        = buf ++ (l.filter p).map f := by
  intro l
  induction l with
  | nil => intro buf; simp
  | cons i l ih =>
      intro buf
      rw [List.foldl_cons]
      cases hp : p i
      · rw [if_pos (by simp [hp]), ih, List.filter_cons_of_neg (by simp [hp])]
      · rw [if_neg (by simp [hp]), ih, List.filter_cons_of_pos hp]
        simp

/-- Page indices are monotone in addresses. -/
theorem pageFromAddress_mono {a b : Nat} (hab : a ≤ b) :
    pageFromAddress a ≤ pageFromAddress b :=
  Nat.div_le_div_right hab

/-! ## Claims -/

/-- Claim C1: `RecordWrite(container, slot, value)` appends the slot address
to the store buffer if and only if the value is in the young generation, the
container is a heap object, and the container is not in the young
generation; in every other combination the store buffer is unchanged. -/
theorem recordWrite_appends_iff (buf : List Nat) (object : Obj) (slot : Nat)
    (value : Obj) :
    (recordWrite buf object slot value = buf ++ [slot] ↔
      inNewSpace value = true ∧ object.isHeapObject = true ∧
        inNewSpace object = false) ∧
    (¬(inNewSpace value = true ∧ object.isHeapObject = true ∧
        inNewSpace object = false) →
      recordWrite buf object slot value = buf) := by
  cases hv : inNewSpace value <;> cases ho : object.isHeapObject <;>
    cases hn : inNewSpace object <;> simp [recordWrite, hv, ho, hn]

/-- Witness for C1: a young value stored into an old heap object appends
the slot address. -/
theorem recordWrite_appends_iff_witness :
    recordWrite [] { isHeapObject := true, pageInNewSpace := false } 42
      { isHeapObject := true, pageInNewSpace := true } = [] ++ [42] :=
  (recordWrite_appends_iff [] { isHeapObject := true, pageInNewSpace := false }
      42 { isHeapObject := true, pageInNewSpace := true }).1.mpr (by decide)

/-- Claim C8: `RecordFixedArrayElements(array, offset, length)` leaves the
store buffer unchanged when the array is in the young generation; otherwise
it appends exactly the slot addresses of those elements in
`[offset, offset+length)` that currently hold young-generation pointers,
one entry per such element, at that element's own address. -/
theorem recordFixedArrayElements_spec (buf : List Nat) (array : FixedArrayObj)
    (offset length : Nat) :
    (inNewSpace array.self = true →
      recordFixedArrayElements buf array offset length = buf) ∧
    (inNewSpace array.self = false →
      recordFixedArrayElements buf array offset length =
        buf ++ ((List.range length).filter
            (fun i => inNewSpace (array.get (offset + i)))).map
          (fun i => array.rawFieldOfElementAt (offset + i))) := by
  constructor
  · intro hy
    simp [recordFixedArrayElements, hy]
  · intro hy
    simp only [recordFixedArrayElements, hy, Bool.false_eq_true, if_false]
    exact foldl_cond_append _ _ _ _

/-- Concrete old-generation array whose element 3 (alone) holds a
young-generation pointer; element slot addresses start at 1000 with 8-byte
stride. -/
def sampleOldArray : FixedArrayObj :=
  { self := { isHeapObject := true, pageInNewSpace := false }
    get := fun i =>
      if i == 3 then { isHeapObject := true, pageInNewSpace := true }
      else { isHeapObject := true, pageInNewSpace := false }
    rawFieldOfElementAt := fun i => 1000 + 8 * i }

/-- Witness for C8: recording elements 0..9 of the sample array appends
exactly the slot addresses of the young-holding elements. -/
theorem recordFixedArrayElements_spec_witness :
    recordFixedArrayElements [] sampleOldArray 0 10 =
      [] ++ ((List.range 10).filter
          (fun i => inNewSpace (sampleOldArray.get (0 + i)))).map
        (fun i => sampleOldArray.rawFieldOfElementAt (0 + i)) :=
  (recordFixedArrayElements_spec [] sampleOldArray 0 10).2 rfl

/-- Claim C9: `FinalizeExternalString` clears the resource pointer, is
idempotent, and across repeated calls disposes the resource exactly once;
a call on an already-finalized reference is a no-op. -/
theorem finalizeExternalString_idempotent (s : ExternalStringState) :
    (finalizeExternalString s).resource = none ∧
    finalizeExternalString (finalizeExternalString s) =
      finalizeExternalString s ∧
    (∀ r, s.resource = some r →
      (finalizeExternalString (finalizeExternalString s)).disposeCount =
        s.disposeCount + 1) ∧
    (s.resource = none → finalizeExternalString s = s) := by
  cases hs : s.resource <;> simp [finalizeExternalString, hs]

/-- Witness for C9: finalizing a string holding resource 7 twice disposes
exactly once. -/
theorem finalizeExternalString_idempotent_witness :
    (finalizeExternalString (finalizeExternalString
        { resource := some 7, disposeCount := 0 })).disposeCount = 0 + 1 :=
  (finalizeExternalString_idempotent
      { resource := some 7, disposeCount := 0 }).2.2.1 7 rfl

/-- Claim C10: `CopyFixedArray` and `CopyFixedDoubleArray` return the
source itself as a success for zero-length arrays, leaving the heap state
unchanged; only non-empty arrays delegate to the allocating copy. -/
theorem copyFixedArray_empty_returns_source {σ : Type}
    (copyFixedArrayWithMap copyFixedDoubleArrayWithMap :
      σ → FixedArrayHeader → Nat → σ × AllocationResult)
    (st : σ) (src : FixedArrayHeader) :
    (src.length = 0 →
      copyFixedArray copyFixedArrayWithMap st src =
        (st, AllocationResult.success src.address) ∧
      copyFixedDoubleArray copyFixedDoubleArrayWithMap st src =
        (st, AllocationResult.success src.address)) ∧
    (src.length ≠ 0 →
      copyFixedArray copyFixedArrayWithMap st src =
        copyFixedArrayWithMap st src src.map ∧
      copyFixedDoubleArray copyFixedDoubleArrayWithMap st src =
        copyFixedDoubleArrayWithMap st src src.map) := by
  constructor
  · intro h0
    simp [copyFixedArray, copyFixedDoubleArray, h0]
  · intro h0
    simp [copyFixedArray, copyFixedDoubleArray, h0]

/-- Witness for C10: copying an empty array at address 96 returns the array
itself with the heap counter untouched. -/
theorem copyFixedArray_empty_returns_source_witness :
    copyFixedArray
        (fun (st : Nat) _ _ =>
          (st + 1, AllocationResult.retry AllocationSpace.OLD_SPACE))
        0 { address := 96, length := 0, map := 5 } =
      (0, AllocationResult.success 96) :=
  ((copyFixedArray_empty_returns_source
      (fun (st : Nat) _ _ =>
        (st + 1, AllocationResult.retry AllocationSpace.OLD_SPACE))
      (fun (st : Nat) _ _ =>
        (st + 1, AllocationResult.retry AllocationSpace.OLD_SPACE))
      0 { address := 96, length := 0, map := 5 }).1 rfl).1

/-- Every terminating run of the dispatcher pairs its allocation result with
the instrumentation log determined by that result. -/
theorem allocateRaw_log_shape (h : AllocHeap) (size_in_bytes : Nat)
    (space : AllocationSpace) (alignment : AllocationAlignment)
    (result : AllocationResult) (hookCalls : List (Nat × Nat))
    (heq : allocateRaw h size_in_bytes space alignment =
      some (result, hookCalls)) :
    hookCalls = onAllocationEventLog result size_in_bytes := by
  cases space <;>
    by_cases hl : kMaxRegularHeapObjectSize < size_in_bytes <;>
      by_cases hc : size_in_bytes ≤ h.codeSpaceAreaSize <;>
        simp [allocateRaw, hl, hc] at heq <;>
        · obtain ⟨h1, h2⟩ := heq
          rw [← h1, ← h2]

/-- Claim C2: a young-generation request above the large-object threshold
resolves to the large-object space with a non-executable allocation there,
and the outcome is independent of the young-space bump allocator. -/
theorem allocateRaw_young_large_redirects (h : AllocHeap)
    (size_in_bytes : Nat) (alignment : AllocationAlignment)
    (hlarge : size_in_bytes > kMaxRegularHeapObjectSize) :
    allocateRaw h size_in_bytes AllocationSpace.NEW_SPACE alignment =
      some (h.loSpaceAllocateRaw size_in_bytes Executability.NOT_EXECUTABLE,
        onAllocationEventLog
          (h.loSpaceAllocateRaw size_in_bytes Executability.NOT_EXECUTABLE)
          size_in_bytes) ∧
    (∀ f, allocateRaw { h with newSpaceAllocateRaw := f } size_in_bytes
        AllocationSpace.NEW_SPACE alignment =
      allocateRaw h size_in_bytes AllocationSpace.NEW_SPACE alignment) := by
  constructor
  · simp [allocateRaw, hlarge]
  · intro f
    simp [allocateRaw, hlarge]

/-- Heap whose abstract space allocators return fixed outcomes: the young
space succeeds at 4096, the old space is exhausted, the rest succeed. -/
def sampleAllocHeap : AllocHeap :=
  { newSpaceAllocateRaw := fun _ _ => AllocationResult.success 4096
    oldSpaceAllocateRaw := fun _ _ =>
      AllocationResult.retry AllocationSpace.OLD_SPACE
    codeSpaceAllocateRawUnaligned := fun _ => AllocationResult.success 8192
    mapSpaceAllocateRawUnaligned := fun _ => AllocationResult.success 12288
    loSpaceAllocateRaw := fun _ _ => AllocationResult.success 16384
    codeSpaceAreaSize := 65536 }

/-- Witness for C2: a 507137-byte young request on the sample heap lands in
the large-object space, non-executable. -/
theorem allocateRaw_young_large_redirects_witness :
    allocateRaw sampleAllocHeap 507137 AllocationSpace.NEW_SPACE
        AllocationAlignment.kWordAligned =
      some (sampleAllocHeap.loSpaceAllocateRaw 507137
          Executability.NOT_EXECUTABLE,
        onAllocationEventLog
          (sampleAllocHeap.loSpaceAllocateRaw 507137
            Executability.NOT_EXECUTABLE) 507137) :=
  (allocateRaw_young_large_redirects sampleAllocHeap 507137
      AllocationAlignment.kWordAligned (by decide)).1

/-- Claim C3: every dispatcher invocation that returns `Success` fires the
allocation-event hook exactly once on the resulting object, and every
invocation that returns `Retry` fires it zero times. -/
theorem allocateRaw_hook_exactly_once (h : AllocHeap) (size_in_bytes : Nat)
    (space : AllocationSpace) (alignment : AllocationAlignment)
    (result : AllocationResult) (hookCalls : List (Nat × Nat))
    (heq : allocateRaw h size_in_bytes space alignment =
      some (result, hookCalls)) :
    (∀ address, result = AllocationResult.success address →
      hookCalls = [(address, size_in_bytes)]) ∧
    (∀ sp, result = AllocationResult.retry sp → hookCalls = []) := by
  have hlog := allocateRaw_log_shape h size_in_bytes space alignment result
    hookCalls heq
  subst hlog
  constructor
  · rintro address rfl
    rfl
  · rintro sp rfl
    rfl

/-- Witness for C3: on the sample heap a small young allocation succeeds at
4096 and fires the hook once; an old-space allocation retries and fires it
zero times. -/
theorem allocateRaw_hook_exactly_once_witness :
    [((4096 : Nat), (16 : Nat))] = [(4096, 16)] ∧
      ([] : List (Nat × Nat)) = [] :=
  ⟨(allocateRaw_hook_exactly_once sampleAllocHeap 16
      AllocationSpace.NEW_SPACE AllocationAlignment.kWordAligned
      (AllocationResult.success 4096) [(4096, 16)] (by decide)).1 4096 rfl,
   (allocateRaw_hook_exactly_once sampleAllocHeap 16
      AllocationSpace.OLD_SPACE AllocationAlignment.kWordAligned
      (AllocationResult.retry AllocationSpace.OLD_SPACE) [] (by decide)).2
      AllocationSpace.OLD_SPACE rfl⟩

/-- The mode-specific tail never adds to the read log. -/
theorem findMementoModeCheck_snd (h : MementoHeap) (mode : FindMementoMode)
    (memento_address : Nat) (reads : List Nat) :
    (findMementoModeCheck h mode memento_address reads).2 = reads := by
  cases mode
  · rfl
  · simp only [findMementoModeCheck]
    split <;> rfl

/-- The memento scan either reads nothing, or reads exactly the candidate
map word, and in the latter case the page-fit check has passed. -/
theorem findAllocationMemento_reads (h : MementoHeap) (mode : FindMementoMode)
    (object_size object_address : Nat) :
    (findAllocationMemento h mode object_size object_address).2 = [] ∨
    ((findAllocationMemento h mode object_size object_address).2 =
        [object_address + object_size] ∧
      onSamePage object_address
        (object_address + object_size + kPointerSize) = true) := by
  simp only [findAllocationMemento]
  split
  · exact Or.inl rfl
  · rename_i hpage
    right
    constructor
    · split
      · rfl
      · split
        · split
          · rfl
          · split
            · rfl
            · exact findMementoModeCheck_snd h mode _ _
        · exact findMementoModeCheck_snd h mode _ _
    · simpa using hpage

/-- Claim C4: when the candidate memento address plus the following word
does not fit on the object's page, `FindAllocationMemento` returns Invalid
immediately without reading anything; and every word it ever reads lies on
the page containing the inspected object. -/
theorem findAllocationMemento_page_safe (h : MementoHeap)
    (mode : FindMementoMode) (object_size object_address : Nat) :
    (onSamePage object_address
        (object_address + object_size + kPointerSize) = false →
      findAllocationMemento h mode object_size object_address = (none, [])) ∧
    (∀ a ∈ (findAllocationMemento h mode object_size object_address).2,
      onSamePage object_address a = true) := by
  constructor
  · intro hb
    simp [findAllocationMemento, hb]
  · intro a ha
    rcases findAllocationMemento_reads h mode object_size object_address with
      hr | ⟨hr, hsp⟩
    · rw [hr] at ha
      cases ha
    · rw [hr] at ha
      have haddr : a = object_address + object_size := by simpa using ha
      subst haddr
      have h1 : pageFromAddress object_address =
          pageFromAddress (object_address + object_size + kPointerSize) := by
        simpa [onSamePage] using hsp
      have h2 : pageFromAddress object_address ≤
          pageFromAddress (object_address + object_size) :=
        pageFromAddress_mono (Nat.le_add_right _ _)
      have h3 : pageFromAddress (object_address + object_size) ≤
          pageFromAddress (object_address + object_size + kPointerSize) :=
        pageFromAddress_mono (Nat.le_add_right _ _)
      rw [← h1] at h3
      have h4 := le_antisymm h2 h3
      simpa [onSamePage] using h4

/-- Memento heap whose memory holds the allocation-memento map word 777 at
address 1048700 (page 2) and nothing else; no page is below the age mark,
the new-space top is elsewhere, and payload validation succeeds. -/
def sampleMementoHeap : MementoHeap :=
  { mem := fun a => if a == 1048700 then 777 else 0
    allocationMementoMapWord := 777
    newSpaceBelowAgeMark := fun _ => false
    ageMarkOfPageOwner := fun _ => 0
    newSpaceTop := 99
    mementoIsValid := fun _ => true }

/-- Witness for C4: an object whose trailing word would cross into page 3
is rejected with no reads, while an in-page candidate's single read lies on
the object's page. -/
theorem findAllocationMemento_page_safe_witness :
    findAllocationMemento sampleMementoHeap FindMementoMode.kForRuntime 8
        1572848 = (none, []) ∧
      onSamePage 1048676 1048700 = true :=
  ⟨(findAllocationMemento_page_safe sampleMementoHeap
      FindMementoMode.kForRuntime 8 1572848).1 (by decide),
   (findAllocationMemento_page_safe sampleMementoHeap
      FindMementoMode.kForGC 24 1048676).2 1048700 (by decide)⟩

/-- In runtime mode the tail rejects a candidate sitting at the new-space
allocation top. -/
theorem findMementoModeCheck_runtime_top (h : MementoHeap)
    (memento_address : Nat) (reads : List Nat)
    (htop : memento_address = h.newSpaceTop) :
    (findMementoModeCheck h FindMementoMode.kForRuntime memento_address
        reads).1 = none := by
  simp [findMementoModeCheck, htop]

/-- In runtime mode the tail returns a candidate only after the payload
re-validation, and returns the candidate address itself. -/
theorem findMementoModeCheck_runtime_some (h : MementoHeap)
    (memento_address : Nat) (reads : List Nat) (m : Nat)
    (hsome : (findMementoModeCheck h FindMementoMode.kForRuntime
        memento_address reads).1 = some m) :
    h.mementoIsValid memento_address = true ∧ m = memento_address := by
  simp only [findMementoModeCheck] at hsome
  split at hsome
  · rename_i hcond
    simp only [Bool.and_eq_true, decide_eq_true_eq] at hcond
    have hm2 : memento_address = m := by simpa using hsome
    subst hm2
    exact ⟨hcond.2, rfl⟩
  · cases hsome

/-- Claim C5: in `ForRuntime` mode `FindAllocationMemento` returns Invalid
whenever the candidate address equals the young-generation allocation top
and re-validates the payload before any Valid; in `ForGC` mode, once the
page-fit, descriptor, and age-mark checks pass, it returns the candidate as
Valid without a top-equality check. -/
theorem findAllocationMemento_mode_distinction (h : MementoHeap)
    (object_size object_address : Nat) :
    (object_address + object_size = h.newSpaceTop →
      (findAllocationMemento h FindMementoMode.kForRuntime object_size
          object_address).1 = none) ∧
    (∀ m, (findAllocationMemento h FindMementoMode.kForRuntime object_size
          object_address).1 = some m →
      h.mementoIsValid (object_address + object_size) = true ∧
        m = object_address + object_size) ∧
    (onSamePage object_address
        (object_address + object_size + kPointerSize) = true →
      h.mem (object_address + object_size) = h.allocationMementoMapWord →
      (h.newSpaceBelowAgeMark (pageFromAddress object_address) = true →
        pageContains (pageFromAddress object_address)
            (h.ageMarkOfPageOwner (pageFromAddress object_address)) = true ∧
          h.ageMarkOfPageOwner (pageFromAddress object_address) ≤
            object_address) →
      (findAllocationMemento h FindMementoMode.kForGC object_size
          object_address).1 = some (object_address + object_size)) := by
  refine ⟨?_, ?_, ?_⟩
  · intro htop
    simp only [findAllocationMemento]
    split
    · rfl
    · split
      · rfl
      · split
        · split
          · rfl
          · split
            · rfl
            · exact findMementoModeCheck_runtime_top h _ _ htop
        · exact findMementoModeCheck_runtime_top h _ _ htop
  · intro m hm
    simp only [findAllocationMemento] at hm
    split at hm
    · cases hm
    · split at hm
      · cases hm
      · split at hm
        · split at hm
          · cases hm
          · split at hm
            · cases hm
            · exact findMementoModeCheck_runtime_some h _ _ m hm
        · exact findMementoModeCheck_runtime_some h _ _ m hm
  · intro hpage hmap hage
    simp only [findAllocationMemento]
    rw [if_neg (by simp [hpage])]
    rw [if_neg (by simp [hmap])]
    by_cases hb :
        h.newSpaceBelowAgeMark (pageFromAddress object_address) = true
    · rw [if_pos hb]
      obtain ⟨hc, hle⟩ := hage hb
      rw [if_neg (by simp [hc]), if_neg (Nat.not_lt.mpr hle)]
      rfl
    · rw [if_neg hb]
      rfl

/-- The sample memento heap with the new-space top sitting exactly at the
candidate memento address 1048700. -/
def sampleTopMementoHeap : MementoHeap :=
  { sampleMementoHeap with newSpaceTop := 1048700 }

/-- Witness for C5: with the top at the candidate, runtime mode rejects the
very byte pattern GC mode accepts. -/
theorem findAllocationMemento_mode_distinction_witness :
    (findAllocationMemento sampleTopMementoHeap FindMementoMode.kForRuntime
        24 1048676).1 = none ∧
      (findAllocationMemento sampleTopMementoHeap FindMementoMode.kForGC
        24 1048676).1 = some (1048676 + 24) :=
  ⟨(findAllocationMemento_mode_distinction sampleTopMementoHeap 24
      1048676).1 (by decide),
   (findAllocationMemento_mode_distinction sampleTopMementoHeap 24
      1048676).2.2 (by decide) (by decide) (by decide)⟩

/-- Under the below-age-mark page flag, a missing or higher age mark forces
an Invalid result. -/
theorem findAllocationMemento_age_mark_none (h : MementoHeap)
    (mode : FindMementoMode) (object_size object_address : Nat)
    (hflag : h.newSpaceBelowAgeMark (pageFromAddress object_address) = true)
    (hbad : pageContains (pageFromAddress object_address)
        (h.ageMarkOfPageOwner (pageFromAddress object_address)) = false ∨
      object_address <
        h.ageMarkOfPageOwner (pageFromAddress object_address)) :
    (findAllocationMemento h mode object_size object_address).1 = none := by
  simp only [findAllocationMemento]
  by_cases hp : (!onSamePage object_address
      (object_address + object_size + kPointerSize)) = true
  · rw [if_pos hp]
  · rw [if_neg hp]
    by_cases hmw : h.mem (object_address + object_size) ≠
        h.allocationMementoMapWord
    · rw [if_pos hmw]
    · rw [if_neg hmw, if_pos hflag]
      rcases hbad with hcf | hlt
      · rw [if_pos (by simp [hcf])]
      · by_cases hc : (!pageContains (pageFromAddress object_address)
            (h.ageMarkOfPageOwner (pageFromAddress object_address))) = true
        · rw [if_pos hc]
        · rw [if_neg hc, if_pos hlt]

/-- Claim C6: on a page flagged below the age mark, `FindAllocationMemento`
returns Valid only if the age mark lies on that same page at or below the
object's address; an age mark on a different page, or an object strictly
below the age mark, yields Invalid. -/
theorem findAllocationMemento_age_mark_spec (h : MementoHeap)
    (mode : FindMementoMode) (object_size object_address : Nat)
    (hflag : h.newSpaceBelowAgeMark (pageFromAddress object_address) = true) :
    (∀ m, (findAllocationMemento h mode object_size object_address).1 =
        some m →
      pageContains (pageFromAddress object_address)
          (h.ageMarkOfPageOwner (pageFromAddress object_address)) = true ∧
        h.ageMarkOfPageOwner (pageFromAddress object_address) ≤
          object_address) ∧
    ((pageContains (pageFromAddress object_address)
          (h.ageMarkOfPageOwner (pageFromAddress object_address)) = false ∨
        object_address <
          h.ageMarkOfPageOwner (pageFromAddress object_address)) →
      (findAllocationMemento h mode object_size object_address).1 = none) := by
  constructor
  · intro m hm
    by_cases hc : pageContains (pageFromAddress object_address)
        (h.ageMarkOfPageOwner (pageFromAddress object_address)) = true
    · refine ⟨hc, ?_⟩
      by_cases hle : h.ageMarkOfPageOwner (pageFromAddress object_address) ≤
          object_address
      · exact hle
      · rw [findAllocationMemento_age_mark_none h mode object_size
          object_address hflag (Or.inr (Nat.lt_of_not_le hle))] at hm
        cases hm
    · rw [findAllocationMemento_age_mark_none h mode object_size
        object_address hflag (Or.inl (by simpa using hc))] at hm
      cases hm
  · exact findAllocationMemento_age_mark_none h mode object_size
      object_address hflag

/-- The sample memento heap with every page flagged below the age mark and
the age mark on page 3, away from the inspected object's page 2. -/
def sampleAgeMarkHeap : MementoHeap :=
  { sampleMementoHeap with
    newSpaceBelowAgeMark := fun _ => true
    ageMarkOfPageOwner := fun _ => 2000000 }

/-- Witness for C6: with the age mark on a different page the scan returns
Invalid. -/
theorem findAllocationMemento_age_mark_spec_witness :
    (findAllocationMemento sampleAgeMarkHeap FindMementoMode.kForGC 24
        1048676).1 = none :=
  (findAllocationMemento_age_mark_spec sampleAgeMarkHeap
      FindMementoMode.kForGC 24 1048676 (by decide)).2 (Or.inl (by decide))

/-- The rolling digest after a run depends only on the event sequence and
the starting digest, not on the allocation counter or the synthetic
clock. -/
theorem runInstrumentationEvents_hash_determined
    (addCharacterCore : Nat → Nat → Nat) :
    ∀ (events : List InstrumentationEvent) (st1 st2 : HashState),
      st1.rawAllocationsHash = st2.rawAllocationsHash →
      (runInstrumentationEvents addCharacterCore st1
          events).rawAllocationsHash =
        (runInstrumentationEvents addCharacterCore st2
          events).rawAllocationsHash := by
  intro events
  induction events with
  | nil =>
      intro st1 st2 hhash
      exact hhash
  | cons e es ih =>
      intro st1 st2 hhash
      exact ih (stepInstrumentationEvent addCharacterCore st1 e)
        (stepInstrumentationEvent addCharacterCore st2 e)
        (by cases e <;>
          simp [stepInstrumentationEvent, onAllocationEventHash,
            onMoveEventHash, hhash])

/-- Claim C7: with deterministic-hash mode on, replaying the same event
sequence from the same initial rolling hash yields the same digest (the
counter and synthetic clock do not leak into it), and each 32-bit value is
folded by applying the 16-bit mixing step twice, low half then high
half. -/
theorem deterministicHashReplay (addCharacterCore : Nat → Nat → Nat)
    (st1 st2 : HashState) (events : List InstrumentationEvent)
    (hhash : st1.rawAllocationsHash = st2.rawAllocationsHash) :
    (runInstrumentationEvents addCharacterCore st1
        events).rawAllocationsHash =
      (runInstrumentationEvents addCharacterCore st2
        events).rawAllocationsHash ∧
    (∀ hash value, updateAllocationsHashValue addCharacterCore hash value =
      addCharacterCore (addCharacterCore hash (value % 2 ^ 16))
        ((value / 2 ^ 16) % 2 ^ 16)) :=
  ⟨runInstrumentationEvents_hash_determined addCharacterCore events st1 st2
      hhash,
    fun _ _ => rfl⟩

/-- Witness for C7: replaying one allocation and one move from two states
that agree on the digest (but not on counter or clock) gives equal
digests. -/
theorem deterministicHashReplay_witness :
    (runInstrumentationEvents (fun hsh c => (hsh + c) * 31)
        { allocationsCount := 0, rawAllocationsHash := 5, syntheticClock := 0 }
        [InstrumentationEvent.allocation 100 1 24,
          InstrumentationEvent.move 100 1 200 2 24]).rawAllocationsHash =
      (runInstrumentationEvents (fun hsh c => (hsh + c) * 31)
        { allocationsCount := 7, rawAllocationsHash := 5, syntheticClock := 99 }
        [InstrumentationEvent.allocation 100 1 24,
          InstrumentationEvent.move 100 1 200 2 24]).rawAllocationsHash :=
  (deterministicHashReplay (fun hsh c => (hsh + c) * 31)
      { allocationsCount := 0, rawAllocationsHash := 5, syntheticClock := 0 }
      { allocationsCount := 7, rawAllocationsHash := 5, syntheticClock := 99 }
      [InstrumentationEvent.allocation 100 1 24,
        InstrumentationEvent.move 100 1 200 2 24] rfl).1

end V8Heap
